import Mathlib

/-!
Verification of the osu-collector-dl download core (src/core/DownloadManager.ts).

The embedding models the cooperative, single-logical-thread semantics of the
orchestrator under the sequential schedule (concurrency 1, the schedule the
configuration permits when `parallel` is disabled): tasks submitted to the
bounded-concurrency queue run to completion in FIFO order, a retry chain runs
inside its task, and a rate-limited re-submission goes to the back of the queue.
Event ordering and all counters are schedule-independent for the properties
below.  Machine integers are modelled as Nat (ids, statuses and counters are
small non-negative integers in the source).
-/

namespace Ocdl

/-- Attempt options of `_downloadFile`: `{ retries: number; alt: boolean }`. -/
structure Opts where
  retries : Nat
  alt : Bool
deriving Repr, DecidableEq

/-- Default options of `_downloadFile`: `{ retries: 3, alt: false }`. -/
def initOpts : Opts := { retries := 3, alt := false }

/-- The parts of an HTTP response the download core inspects: the status code,
the `content-disposition` header (if present) and whether `response.body` is
null.  This models the external fetch primitive's result. -/
structure FetchOutcome where
  status : Nat
  contentDisposition : Option String
  bodyNull : Bool
deriving Repr, DecidableEq

/-- Events emitted by the DownloadManager (the `DownloadManagerEvents`
interface).  `endEv` carries the `notDownloadedBeatMapSet` snapshot. -/
inductive Ev
  | downloading (id : Nat)
  | downloaded (id : Nat)
  | retrying (id : Nat)
  | errorEv (id : Nat)
  | skipped (id : Nat)
  | rateLimited
  | endEv (failed : List Nat)
  | indexing (done total : Nat)
deriving Repr, DecidableEq

/-! ### Leading-id extraction and the existing-item index (`_indexSongsFolder`) -/

/-- `file.match(/^(\d+)/)`: the leading run of decimal digits of a directory
entry name, or `none` when the name does not begin with a digit. -/
def leadingDigits (s : String) : Option String :=
  let ds := s.data.takeWhile Char.isDigit
  if ds.isEmpty then none else some (String.mk ds)

/-- State of the indexer: the `existingBeatmaps` keys, the `indexedSongs` and
`totalSongs` counters, and the `indexing` events emitted so far. -/
structure IndexState where
  existingBeatmaps : List String
  indexedSongs : Nat
  totalSongs : Nat
  events : List Ev
deriving Repr, DecidableEq

/-- One iteration of the loop in `_indexSongsFolder`: record the leading
numeric token (if any), bump `indexedSongs`, emit `indexing`. -/
def indexOne (st : IndexState) (file : String) : IndexState :=
  let st1 :=
    match leadingDigits file with
    | some tok => { st with existingBeatmaps := st.existingBeatmaps ++ [tok] }
    | none => st
  let st2 := { st1 with indexedSongs := st1.indexedSongs + 1 }
  { st2 with events := st2.events ++ [Ev.indexing st2.indexedSongs st2.totalSongs] }

/-- The loop of `_indexSongsFolder` over the directory listing. -/
def indexSongsFolder : List String → IndexState → IndexState
  | [], st => st
  | f :: fs, st => indexSongsFolder fs (indexOne st f)

/-- `_indexSongsFolder` run on a fresh DownloadManager: `totalSongs` is set to
the number of entries before the loop. -/
def runIndexer (files : List String) : IndexState :=
  indexSongsFolder files
    { existingBeatmaps := [], indexedSongs := 0, totalSongs := files.length, events := [] }

/-- `beatmapId.toString()` digit list, least-significant first; structurally
fuelled so that it reduces inside the kernel (the fuel `n + 1` always
suffices, since the number of decimal digits of `n` is at most `n + 1`). -/
def natToDigitsRevAux : Nat → Nat → List Char
  | 0, _ => []
  | fuel + 1, n =>
    if n < 10 then [Nat.digitChar n]
    else Nat.digitChar (n % 10) :: natToDigitsRevAux fuel (n / 10)

/-- `beatmapId.toString()` digit list, least-significant first. -/
def natToDigitsRev (n : Nat) : List Char := natToDigitsRevAux (n + 1) n

/-- `beatmapId.toString()`: decimal rendering of a natural number. -/
def natToString (n : Nat) : String := String.mk (natToDigitsRev n).reverse

/-- `_isBeatmapExisting`: `this.existingBeatmaps.has(beatmapId.toString())`. -/
def isBeatmapExisting (id : Nat) (existingBeatmaps : List String) : Bool :=
  existingBeatmaps.contains (natToString id)

/-! ### Filename resolution (`_getFilename`) -/

/-- The only error kind raised by `_getFilename`:
`OcdlError("FILE_NAME_EXTRACTION_FAILED", e)`. -/
inductive OcdlErrorKind
  | fileNameExtractionFailed
deriving Repr, DecidableEq

/-- Characters forbidden in path segments, from the sanitizer regex
described by the spec: space, `/`, `<`, `>`, `:`, `"`, `\`, `|`, `?`, `*`. -/
def isForbiddenChar (c : Char) : Bool :=
  c = ' ' || c = '/' || c = '<' || c = '>' || c = ':' ||
  c = '"' || c = '\\' || c = '|' || c = '?' || c = '*'

/-- Modelled from the spec: `Util.replaceForbiddenChars` is referenced by
`_getFilename` but its source is not under src/.  Per the spec (section 4.2
step 4), it strips or collapses the characters forbidden in filesystem path
segments (space, `/ < > : " \ | ? *`, and runs thereof) from the decoded name;
removing every forbidden character is the same operation. -/
def replaceForbiddenChars (s : String) : String :=
  String.mk (s.data.filter (fun c => !(isForbiddenChar c)))

/-- Hexadecimal digit value, as accepted inside a `%XX` escape. -/
def hexVal (c : Char) : Option Nat :=
  if '0' ≤ c ∧ c ≤ '9' then some (c.toNat - '0'.toNat)
  else if 'a' ≤ c ∧ c ≤ 'f' then some (c.toNat - 'a'.toNat + 10)
  else if 'A' ≤ c ∧ c ≤ 'F' then some (c.toNat - 'A'.toNat + 10)
  else none

/-- First phase of `decodeURIComponent`: split the input into literal
characters (`Sum.inl`) and `%XX`-escaped bytes (`Sum.inr`).  A `%` not
followed by two hexadecimal digits is a decoding error. -/
def splitEscapes : List Char → Option (List (Char ⊕ Nat))
  | [] => some []
  | '%' :: c1 :: c2 :: rest =>
    match hexVal c1, hexVal c2 with
    | some h1, some h2 => (splitEscapes rest).map (fun l => Sum.inr (16 * h1 + h2) :: l)
    | _, _ => none
  | '%' :: _ => none
  | c :: rest => (splitEscapes rest).map (fun l => Sum.inl c :: l)

/-- Second phase of `decodeURIComponent`: escaped bytes must form valid UTF-8
sequences whose continuation bytes are themselves escaped; literal characters
pass through.  Any malformed sequence is a decoding error. -/
def decodeItems : List (Char ⊕ Nat) → Option (List Char)
  | [] => some []
  | Sum.inl c :: rest => (decodeItems rest).map (fun l => c :: l)
  | Sum.inr b1 :: rest =>
    if b1 < 0x80 then (decodeItems rest).map (fun l => Char.ofNat b1 :: l)
    else if 0xC2 ≤ b1 ∧ b1 ≤ 0xDF then
      match rest with
      | Sum.inr b2 :: rest2 =>
        if 0x80 ≤ b2 ∧ b2 < 0xC0 then
          (decodeItems rest2).map (fun l => Char.ofNat ((b1 - 0xC0) * 64 + (b2 - 0x80)) :: l)
        else none
      | _ => none
    else if 0xE0 ≤ b1 ∧ b1 ≤ 0xEF then
      match rest with
      | Sum.inr b2 :: Sum.inr b3 :: rest3 =>
        if (0x80 ≤ b2 ∧ b2 < 0xC0) ∧ (0x80 ≤ b3 ∧ b3 < 0xC0) ∧
           (b1 = 0xE0 → 0xA0 ≤ b2) ∧ (b1 = 0xED → b2 ≤ 0x9F) then
          (decodeItems rest3).map
            (fun l => Char.ofNat ((b1 - 0xE0) * 4096 + (b2 - 0x80) * 64 + (b3 - 0x80)) :: l)
        else none
      | _ => none
    else if 0xF0 ≤ b1 ∧ b1 ≤ 0xF4 then
      match rest with
      | Sum.inr b2 :: Sum.inr b3 :: Sum.inr b4 :: rest4 =>
        if (0x80 ≤ b2 ∧ b2 < 0xC0) ∧ (0x80 ≤ b3 ∧ b3 < 0xC0) ∧ (0x80 ≤ b4 ∧ b4 < 0xC0) ∧
           (b1 = 0xF0 → 0x90 ≤ b2) ∧ (b1 = 0xF4 → b2 ≤ 0x8F) then
          (decodeItems rest4).map
            (fun l => Char.ofNat ((b1 - 0xF0) * 262144 + (b2 - 0x80) * 4096 +
                                  (b3 - 0x80) * 64 + (b4 - 0x80)) :: l)
        else none
      | _ => none
    else none

/-- Model of the JavaScript builtin `decodeURIComponent`; `none` models the
thrown `URIError`. -/
def decodeURIComponent (s : String) : Option String :=
  (splitEscapes s.data).bind (fun items => (decodeItems items).map (fun l => String.mk l))

/-- Whether the list begins with the literal characters `filename=`. -/
def startsWithFilenameEq : List Char → Bool
  | 'f' :: 'i' :: 'l' :: 'e' :: 'n' :: 'a' :: 'm' :: 'e' :: '=' :: _ => true
  | _ => false

/-- The regex `/filename=([^;]+)/` applied to the header value: the first
position where `filename=` is followed by at least one non-`;` character
yields the run of non-`;` characters after it. -/
def findFilenameToken : List Char → Option (List Char)
  | [] => none
  | c :: rest =>
    if startsWithFilenameEq (c :: rest) then
      let tok := (List.drop 9 (c :: rest)).takeWhile (fun ch => ch ≠ ';')
      if tok.isEmpty then findFilenameToken rest else some tok
    else findFilenameToken rest

/-- `_getFilename`: default name `Untitled.osz`; when the header exists and
the regex matches, percent-decode the token (a decode failure raises
`FILE_NAME_EXTRACTION_FAILED`) and strip the forbidden characters. -/
def getFilename (contentDisposition : Option String) : Except OcdlErrorKind String :=
  match contentDisposition with
  | none => Except.ok "Untitled.osz"
  | some cd =>
    match findFilenameToken cd.data with
    | none => Except.ok "Untitled.osz"
    | some tok =>
      match decodeURIComponent (String.mk tok) with
      | none => Except.error OcdlErrorKind.fileNameExtractionFailed
      | some decoded => Except.ok (replaceForbiddenChars decoded)

/-! ### The download orchestrator (`bulkDownload` / `_downloadFile`) -/

/-- Classification of one fetch, following the branch order of
`_downloadFile`: status 429 is rate limiting; any other non-200 status
throws; then `_getFilename` may throw; then a null body throws; otherwise
the attempt succeeds. -/
inductive AttemptRes
  | success
  | rateLimited
  | failure
deriving Repr, DecidableEq

/-- Classify a fetch outcome as `_downloadFile`'s try block does. -/
def classify (o : FetchOutcome) : AttemptRes :=
  if o.status = 429 then AttemptRes.rateLimited
  else if o.status ≠ 200 then AttemptRes.failure
  else
    match getFilename o.contentDisposition with
    | Except.error _ => AttemptRes.failure
    | Except.ok _ => if o.bodyNull then AttemptRes.failure else AttemptRes.success

/-- One entry of the bounded-concurrency queue: a pending `_downloadFile`
call.  `wrapper` is true for the tasks submitted by `bulkDownload`, whose
continuation increments `processedCount` (a task re-submitted by the 429
branch has no such continuation). -/
structure Task where
  id : Nat
  opts : Opts
  wrapper : Bool
deriving Repr, DecidableEq

/-- State of one `bulkDownload` run.  `scripts` models the external fetch
primitive: the outcomes each target's successive fetches will produce.
`attempts` is a ghost log of every fetch call `(id, options)`. -/
structure SimState where
  queue : List Task
  scripts : List (Nat × List FetchOutcome)
  events : List Ev
  downloadedBeatMapSetSize : Nat
  notDownloadedBeatMapSet : List Nat
  processedCount : Nat
  totalCount : Nat
  attempts : List (Nat × Opts)
deriving Repr, DecidableEq

/-- Produce the next scripted outcome for a target and consume it.  A target
with an exhausted (or absent) script yields a plain successful response. -/
def popScript : List (Nat × List FetchOutcome) → Nat →
    FetchOutcome × List (Nat × List FetchOutcome)
  | [], _ => ({ status := 200, contentDisposition := none, bodyNull := false }, [])
  | (k, outs) :: rest, id =>
    if k = id then
      match outs with
      | [] => ({ status := 200, contentDisposition := none, bodyNull := false }, (k, []) :: rest)
      | o :: os => (o, (k, os) :: rest)
    else
      let pr := popScript rest id
      (pr.1, (k, outs) :: pr.2)

/-- The continuation `bulkDownload` wraps around each submitted task (and the
tail of the skip branch): increment `processedCount` and emit `end` with the
current `notDownloadedBeatMapSet` when the counter reaches `totalCount`. -/
def finishTask (wrapper : Bool) (st : SimState) : SimState :=
  if wrapper then
    let st1 := { st with processedCount := st.processedCount + 1 }
    if st1.processedCount = st1.totalCount then
      { st1 with events := st1.events ++ [Ev.endEv st1.notDownloadedBeatMapSet] }
    else st1
  else st

/-- One attempt of `_downloadFile` for the task at the head of the queue:
emit `downloading`, fetch, then branch as the source does.  On 429 the
target is re-submitted at the back of the queue with the default options and
no continuation; on failure with retries left the chain continues immediately
with one fewer retry and `alt = (retries == 1)`; on exhausted retries the
target is recorded in `notDownloadedBeatMapSet`; on success the downloaded
counter is bumped.  When the task's chain ends, its wrapper continuation
runs. -/
def runAttempt (t : Task) (rest : List Task) (st : SimState) : SimState :=
  let pr := popScript st.scripts t.id
  let st1 := { st with
    queue := rest
    scripts := pr.2
    events := st.events ++ [Ev.downloading t.id]
    attempts := st.attempts ++ [(t.id, t.opts)] }
  match classify pr.1 with
  | AttemptRes.success =>
    finishTask t.wrapper
      { st1 with
        downloadedBeatMapSetSize := st1.downloadedBeatMapSetSize + 1
        events := st1.events ++ [Ev.downloaded t.id] }
  | AttemptRes.rateLimited =>
    finishTask t.wrapper
      { st1 with
        events := st1.events ++ [Ev.rateLimited]
        queue := st1.queue ++ [{ id := t.id, opts := initOpts, wrapper := false }] }
  | AttemptRes.failure =>
    if t.opts.retries ≠ 0 then
      { st1 with
        events := st1.events ++ [Ev.retrying t.id]
        queue := { id := t.id,
                   opts := { retries := t.opts.retries - 1,
                             alt := t.opts.retries == 1 },
                   wrapper := t.wrapper } :: st1.queue }
    else
      finishTask t.wrapper
        { st1 with
          events := st1.events ++ [Ev.errorEv t.id]
          notDownloadedBeatMapSet := st1.notDownloadedBeatMapSet ++ [t.id] }

/-- One scheduler step: run one attempt of the task at the head of the queue;
`none` when the queue is empty. -/
def step (st : SimState) : Option SimState :=
  match st.queue with
  | [] => none
  | t :: rest => some (runAttempt t rest st)

/-- Drain the queue, fuelled; `some` exactly when the queue drains within the
fuel (the scripts can re-submit rate-limited work indefinitely, so the run is
fuelled rather than structurally terminating). -/
def runQueue : Nat → SimState → Option SimState
  | 0, st => if st.queue = [] then some st else none
  | fuel + 1, st =>
    match step st with
    | none => some st
    | some st1 => runQueue fuel st1

/-- The body of the `forEach` in `bulkDownload` for one target: a target in
the existing index bumps the downloaded counter, emits `skipped` and is
counted as processed at once; otherwise the download task is queued. -/
def addOne (index : List String) (st : SimState) (id : Nat) : SimState :=
  if isBeatmapExisting id index then
    finishTask true
      { st with
        downloadedBeatMapSetSize := st.downloadedBeatMapSetSize + 1
        events := st.events ++ [Ev.skipped id] }
  else
    { st with queue := st.queue ++ [{ id := id, opts := initOpts, wrapper := true }] }

/-- The `forEach` of `bulkDownload` over the collection. -/
def addTargets (index : List String) : List Nat → SimState → SimState
  | [], st => st
  | id :: ts, st => addTargets index ts (addOne index st id)

/-- Fresh run state: all counters zero, `totalCount` is the collection size. -/
def initialState (targets : List Nat) (scripts : List (Nat × List FetchOutcome)) : SimState :=
  { queue := [], scripts := scripts, events := [],
    downloadedBeatMapSetSize := 0, notDownloadedBeatMapSet := [],
    processedCount := 0, totalCount := targets.length, attempts := [] }

/-- A full `bulkDownload` run: submit every target, drain the queue, then the
`queue.on("idle")` listener emits `end` once more if the queue was ever used
(with no tasks the queue never becomes idle, so the listener never fires). -/
def runBulk (targets : List Nat) (index : List String)
    (scripts : List (Nat × List FetchOutcome)) (fuel : Nat) : Option SimState :=
  let st1 := addTargets index targets (initialState targets scripts)
  match runQueue fuel st1 with
  | none => none
  | some st2 =>
    if st1.queue.isEmpty then some st2
    else some { st2 with events := st2.events ++ [Ev.endEv st2.notDownloadedBeatMapSet] }

/-- `getDownloadedBeatMapSetSize`. -/
def getDownloadedBeatMapSetSize (st : SimState) : Nat := st.downloadedBeatMapSetSize

/-! ### The rate-limit throttle (the `rateLimited` listener in `bulkDownload`) -/

/-- Throttle-relevant state: whether the queue is paused, the `testRequest`
probing flag, the live concurrency, and the absolute times of the scheduled
`queue.start()` timers. -/
structure ThrottleState where
  isPaused : Bool
  testRequest : Bool
  concurrency : Nat
  resumesAt : List Nat
deriving Repr, DecidableEq

/-- The `rateLimited` listener: when the queue is not paused, set the probing
flag, pause, drop concurrency to 1 and schedule `queue.start()` after
60e3 milliseconds; when already paused, do nothing. -/
def onRateLimited (now : Nat) (st : ThrottleState) : ThrottleState :=
  if st.isPaused then st
  else { isPaused := true, testRequest := true, concurrency := 1,
         resumesAt := st.resumesAt ++ [now + 60000] }

/-! ### Event counting helpers -/

/-- Recognizer for `end` events. -/
def isEndEv : Ev → Bool
  | Ev.endEv _ => true
  | _ => false

/-- Recognizer for `downloaded` events. -/
def isDownloadedEv : Ev → Bool
  | Ev.downloaded _ => true
  | _ => false

/-- Recognizer for `skipped` events. -/
def isSkippedEv : Ev → Bool
  | Ev.skipped _ => true
  | _ => false

/-- Recognizer for `retrying` events. -/
def isRetryingEv : Ev → Bool
  | Ev.retrying _ => true
  | _ => false

/-- Recognizer for `error` events. -/
def isErrorEv : Ev → Bool
  | Ev.errorEv _ => true
  | _ => false

/-- Number of `end` emissions in an event trace. -/
def countEnd (evs : List Ev) : Nat := evs.countP isEndEv

/-- Number of `downloaded` emissions in an event trace. -/
def countDownloaded (evs : List Ev) : Nat := evs.countP isDownloadedEv

/-- Number of `skipped` emissions in an event trace. -/
def countSkipped (evs : List Ev) : Nat := evs.countP isSkippedEv

/-- Number of `retrying` emissions in an event trace. -/
def countRetrying (evs : List Ev) : Nat := evs.countP isRetryingEv

/-- Number of `error` emissions in an event trace. -/
def countError (evs : List Ev) : Nat := evs.countP isErrorEv

/-- Number of wrapper tasks (tasks whose continuation increments
`processedCount`) in a queue. -/
def wrapCount (q : List Task) : Nat := q.countP (fun t => t.wrapper)

/-- The `(downloaded, skipped, failed-length)` counts at the moment the first
`end` event of a trace is emitted; `none` when the trace has no `end`. -/
def firstEndStats : List Ev → Nat → Nat → Option (Nat × Nat × Nat)
  | [], _, _ => none
  | Ev.endEv f :: _, d, s => some (d, s, f.length)
  | Ev.downloaded _ :: t, d, s => firstEndStats t (d + 1) s
  | Ev.skipped _ :: t, d, s => firstEndStats t d (s + 1)
  | _ :: t, d, s => firstEndStats t d s

/-- Targets not found in the existing index, i.e. the ones `bulkDownload`
submits to the queue. -/
def queuedTargets (targets : List Nat) (index : List String) : List Nat :=
  targets.filter (fun id => !(isBeatmapExisting id index))

/-! ## Lemmas about the indexer -/

theorem indexOne_fields (st : IndexState) (f : String) :
    (indexOne st f).totalSongs = st.totalSongs ∧
    (indexOne st f).indexedSongs = st.indexedSongs + 1 ∧
    (indexOne st f).existingBeatmaps = st.existingBeatmaps ++ (leadingDigits f).toList ∧
    (indexOne st f).events = st.events ++ [Ev.indexing (st.indexedSongs + 1) st.totalSongs] := by
  cases h : leadingDigits f <;> simp [indexOne, h]

theorem indexSongsFolder_totalSongs (files : List String) :
    ∀ st : IndexState, (indexSongsFolder files st).totalSongs = st.totalSongs := by
  induction files with
  | nil => intro st; rfl
  | cons f fs ih =>
    intro st
    rw [indexSongsFolder, ih, (indexOne_fields st f).1]

theorem indexSongsFolder_indexedSongs (files : List String) :
    ∀ st : IndexState, (indexSongsFolder files st).indexedSongs = st.indexedSongs + files.length := by
  induction files with
  | nil => intro st; rfl
  | cons f fs ih =>
    intro st
    rw [indexSongsFolder, ih, (indexOne_fields st f).2.1]
    simp [Nat.add_assoc, Nat.add_comm 1 fs.length]

theorem indexSongsFolder_existing (files : List String) :
    ∀ st : IndexState,
      (indexSongsFolder files st).existingBeatmaps =
        st.existingBeatmaps ++ files.filterMap leadingDigits := by
  induction files with
  | nil => intro st; simp [indexSongsFolder]
  | cons f fs ih =>
    intro st
    rw [indexSongsFolder, ih, (indexOne_fields st f).2.2.1]
    cases h : leadingDigits f <;> simp [h, List.filterMap_cons]

theorem indexSongsFolder_events (files : List String) :
    ∀ st : IndexState,
      (indexSongsFolder files st).events =
        st.events ++ (List.range files.length).map
          (fun i => Ev.indexing (st.indexedSongs + i + 1) st.totalSongs) := by
  induction files with
  | nil => intro st; simp [indexSongsFolder]
  | cons f fs ih =>
    intro st
    rw [indexSongsFolder, ih, (indexOne_fields st f).2.2.2, (indexOne_fields st f).2.1,
      (indexOne_fields st f).1]
    rw [List.length_cons, List.range_succ_eq_map, List.map_cons, List.map_map, List.append_assoc]
    simp [Function.comp]
    intro a _
    omega

/-- C6: for every directory, the indexer sets the total to the number of
directory entries, adds to the index exactly the leading numeric tokens of
entries that begin with one, and reports progress `(processedSoFar, total)`
once after each entry; the directory `["123 Foo - Bar", "456 Baz",
"NoIdHere"]` yields index `{123, 456}` and total 3. -/
theorem C6_indexer :
    (∀ files : List String,
       (runIndexer files).totalSongs = files.length ∧
       (runIndexer files).existingBeatmaps = files.filterMap leadingDigits ∧
       (runIndexer files).events =
         (List.range files.length).map (fun i => Ev.indexing (i + 1) files.length)) ∧
    (runIndexer ["123 Foo - Bar", "456 Baz", "NoIdHere"]).existingBeatmaps = ["123", "456"] ∧
    (runIndexer ["123 Foo - Bar", "456 Baz", "NoIdHere"]).totalSongs = 3 := by
  refine ⟨fun files => ⟨?_, ?_, ?_⟩, by decide, by decide⟩
  · rw [runIndexer, indexSongsFolder_totalSongs]
  · rw [runIndexer, indexSongsFolder_existing]; simp
  · rw [runIndexer, indexSongsFolder_events]; simp

/-! ## The rate-limit throttle -/

/-- C5: the first rate-limit signal while the queue is not paused pauses the
queue, sets live concurrency to 1, sets the probing flag and schedules one
unconditional resume 60000 ms later; a further rate-limit signal arriving
while paused leaves the state (including the scheduled resumes) unchanged. -/
theorem C5_throttle :
    (∀ (now : Nat) (st : ThrottleState), st.isPaused = false →
       onRateLimited now st =
         { isPaused := true, testRequest := true, concurrency := 1,
           resumesAt := st.resumesAt ++ [now + 60000] }) ∧
    (∀ (now : Nat) (st : ThrottleState), st.isPaused = true →
       onRateLimited now st = st) := by
  constructor <;> intro now st h <;> simp [onRateLimited, h]

/-- Witness for C5 at a concrete unpaused state and a concrete paused state. -/
theorem C5_throttle_witness :
    onRateLimited 0 { isPaused := false, testRequest := false, concurrency := 3, resumesAt := [] } =
      { isPaused := true, testRequest := true, concurrency := 1, resumesAt := [60000] } ∧
    onRateLimited 70000 { isPaused := true, testRequest := true, concurrency := 1,
                          resumesAt := [60000] } =
      { isPaused := true, testRequest := true, concurrency := 1, resumesAt := [60000] } :=
  ⟨C5_throttle.1 0 _ rfl, C5_throttle.2 70000 _ rfl⟩

/-! ## Lemmas about decimal rendering and the leading-zero mismatch -/

theorem natToDigitsRevAux_ne_nil (fuel n : Nat) (h : n < fuel) :
    natToDigitsRevAux fuel n ≠ [] := by
  cases fuel with
  | zero => omega
  | succ fuel =>
    rw [natToDigitsRevAux]
    split <;> simp

theorem natToDigitsRevAux_reverse_head (fuel : Nat) :
    ∀ n, n < fuel → 0 < n → (natToDigitsRevAux fuel n).reverse.head? ≠ some '0' := by
  induction fuel with
  | zero => omega
  | succ fuel ih =>
    intro n hlt hpos
    rw [natToDigitsRevAux]
    split
    · next h10 =>
      have key : ∀ m : Nat, m < 10 → 0 < m → Nat.digitChar m ≠ '0' := by decide
      simpa using key n h10 hpos
    · next h10 =>
      have hlt2 : n / 10 < fuel := by
        have : n / 10 < n := Nat.div_lt_self (by omega) (by omega)
        omega
      have hpos2 : 0 < n / 10 := Nat.div_pos (by omega) (by omega)
      have hrevne : (natToDigitsRevAux fuel (n / 10)).reverse ≠ [] := by
        simpa using natToDigitsRevAux_ne_nil fuel (n / 10) hlt2
      obtain ⟨x, xs, hxs⟩ := List.exists_cons_of_ne_nil hrevne
      have ihx := ih (n / 10) hlt2 hpos2
      rw [hxs] at ihx
      rw [List.reverse_cons, hxs]
      simpa using ihx

theorem natToString_ne_leading_zero (tok : String) (id : Nat)
    (h0 : tok.data.head? = some '0') (hlen : 2 ≤ tok.data.length) :
    natToString id ≠ tok := by
  intro heq
  have hdata : (natToDigitsRev id).reverse = tok.data := congrArg String.data heq
  rcases Nat.eq_zero_or_pos id with hz | hpos
  · subst hz
    have h1 : (natToDigitsRev 0).reverse = ['0'] := rfl
    rw [h1] at hdata
    rw [← hdata] at hlen
    simp at hlen
  · exact natToDigitsRevAux_reverse_head (id + 1) id (Nat.lt_succ_self id) hpos
      (by rw [natToDigitsRev] at hdata; rw [hdata]; exact h0)

/-- C10: the existing-item check compares the directory entry's leading digit
string verbatim with the decimal rendering of the target id; a decimal
rendering never carries a leading zero, so an index whose tokens all do can
never report a target as existing, and such a target is (re-)submitted to the
download queue by `bulkDownload`. -/
theorem C10_verbatim :
    (∀ (id : Nat) (index : List String),
       isBeatmapExisting id index = index.contains (natToString id)) ∧
    (∀ (tok : String) (id : Nat), tok.data.head? = some '0' → 2 ≤ tok.data.length →
       natToString id ≠ tok) ∧
    (∀ (id : Nat) (entries : List String),
       (∀ t ∈ (runIndexer entries).existingBeatmaps,
          t.data.head? = some '0' ∧ 2 ≤ t.data.length) →
       isBeatmapExisting id (runIndexer entries).existingBeatmaps = false) ∧
    (∀ (id : Nat) (index : List String) (st : SimState),
       isBeatmapExisting id index = false →
       (addOne index st id).queue =
         st.queue ++ [{ id := id, opts := initOpts, wrapper := true }]) := by
  refine ⟨fun id index => rfl, natToString_ne_leading_zero, ?_, ?_⟩
  · intro id entries h
    rw [isBeatmapExisting]
    rw [List.contains_eq_any_beq]
    simp only [List.any_eq_false, beq_iff_eq]
    intro t ht
    exact natToString_ne_leading_zero t id (h t ht).1 (h t ht).2
  · intro id index st h
    simp [addOne, h]

/-- Witness for C10: id 7 against a directory containing `"007 Song"`. -/
theorem C10_verbatim_witness :
    isBeatmapExisting 7 (runIndexer ["007 Song"]).existingBeatmaps = false :=
  C10_verbatim.2.2.1 7 ["007 Song"] (by decide)

/-! ## Filename resolution -/

/-- C7 counterexample: the header
`content-disposition: attachment; filename="My Song.osz"` does not resolve to
`"My Song.osz"`: the captured token keeps the quotes and the sanitizer strips
both the quotes and the space, yielding `"MySong.osz"`. -/
theorem C7_counterexample :
    getFilename (some "attachment; filename=\"My Song.osz\"") = Except.ok "MySong.osz" ∧
    ("MySong.osz" : String) ≠ "My Song.osz" := by
  constructor
  · rfl
  · decide

/-- C7 amended: the quoted-space example resolves to `"MySong.osz"` (quotes
and spaces are among the stripped characters), `filename="A/B<C"` resolves to
`"ABC"`, a missing header yields the fixed default name, and every filename
returned by `_getFilename` is free of the reserved characters
(space, `/ < > : " \ | ? *`). -/
theorem C7_amended :
    getFilename (some "attachment; filename=\"My Song.osz\"") = Except.ok "MySong.osz" ∧
    getFilename (some "attachment; filename=\"A/B<C\"") = Except.ok "ABC" ∧
    getFilename none = Except.ok "Untitled.osz" ∧
    (∀ (cd : Option String) (fn : String), getFilename cd = Except.ok fn →
       fn.data.all (fun c => !(isForbiddenChar c)) = true) := by
  refine ⟨rfl, rfl, rfl, ?_⟩
  intro cd fn h
  cases cd with
  | none =>
    simp only [getFilename, Except.ok.injEq] at h
    subst h
    decide
  | some s =>
    cases hft : findFilenameToken s.data with
    | none =>
      simp only [getFilename, hft, Except.ok.injEq] at h
      subst h
      decide
    | some tok =>
      cases hdec : decodeURIComponent (String.mk tok) with
      | none => simp [getFilename, hft, hdec] at h
      | some dec =>
        simp only [getFilename, hft, hdec, Except.ok.injEq] at h
        subst h
        rw [replaceForbiddenChars]
        simp only [List.all_eq_true]
        intro c hc
        exact (List.mem_filter.mp hc).2

/-- Witness for the hypothesis-bearing part of the amended C7, at the missing
header. -/
theorem C7_amended_witness :
    ("Untitled.osz" : String).data.all (fun c => !(isForbiddenChar c)) = true :=
  C7_amended.2.2.2 none "Untitled.osz" rfl

/-! ## Lemmas about the wrapper continuation -/

theorem finishTask_queue (w : Bool) (st : SimState) : (finishTask w st).queue = st.queue := by
  simp only [finishTask]
  split_ifs <;> simp

theorem finishTask_scripts (w : Bool) (st : SimState) :
    (finishTask w st).scripts = st.scripts := by
  simp only [finishTask]
  split_ifs <;> simp

theorem finishTask_notDownloaded (w : Bool) (st : SimState) :
    (finishTask w st).notDownloadedBeatMapSet = st.notDownloadedBeatMapSet := by
  simp only [finishTask]
  split_ifs <;> simp

theorem finishTask_size (w : Bool) (st : SimState) :
    (finishTask w st).downloadedBeatMapSetSize = st.downloadedBeatMapSetSize := by
  simp only [finishTask]
  split_ifs <;> simp

theorem finishTask_attempts (w : Bool) (st : SimState) :
    (finishTask w st).attempts = st.attempts := by
  simp only [finishTask]
  split_ifs <;> simp

theorem finishTask_totalCount (w : Bool) (st : SimState) :
    (finishTask w st).totalCount = st.totalCount := by
  simp only [finishTask]
  split_ifs <;> simp

theorem finishTask_processed (w : Bool) (st : SimState) :
    (finishTask w st).processedCount = st.processedCount + (if w then 1 else 0) := by
  simp only [finishTask]
  split_ifs <;> simp

theorem finishTask_countEnd (w : Bool) (st : SimState) :
    countEnd (finishTask w st).events =
      countEnd st.events +
        (if w ∧ st.processedCount + 1 = st.totalCount then 1 else 0) := by
  simp only [finishTask, countEnd]
  split_ifs with h1 h2 <;>
    simp_all [List.countP_append, List.countP_cons, isEndEv]

theorem finishTask_countP (w : Bool) (st : SimState) (p : Ev → Bool)
    (hp : ∀ l, p (Ev.endEv l) = false) :
    (finishTask w st).events.countP p = st.events.countP p := by
  simp only [finishTask]
  split_ifs <;> simp [List.countP_append, List.countP_cons, hp]

/-! ## The retry and rate-limit branches of `_downloadFile` -/

/-- C3 counterexample: with fetch outcomes 500, 500, 500, 429, 200 for a
single target, the rate-limited fourth attempt runs with
`{retries := 0, alt := true}` but is re-submitted as a fetch with the default
`{retries := 3, alt := false}`: the mirror selection is not preserved and the
state is not unchanged. -/
theorem C3_counterexample :
    (runBulk [1] []
        [(1, [{ status := 500, contentDisposition := none, bodyNull := false },
              { status := 500, contentDisposition := none, bodyNull := false },
              { status := 500, contentDisposition := none, bodyNull := false },
              { status := 429, contentDisposition := none, bodyNull := false },
              { status := 200, contentDisposition := none, bodyNull := false }])] 20).map
        (fun st => st.attempts) =
      some [(1, { retries := 3, alt := false }), (1, { retries := 2, alt := false }),
            (1, { retries := 1, alt := false }), (1, { retries := 0, alt := true }),
            (1, { retries := 3, alt := false })] ∧
    ({ retries := 3, alt := false } : Opts) ≠ { retries := 0, alt := true } := by
  constructor
  · rfl
  · decide

/-- C3 amended: an attempt that fetched a 429 is re-submitted to the back of
the queue with the initial default state (`retries = 3`,
`useAlternateSource = false`) rather than with its state preserved; no
`retrying` signal is emitted and the target is not added to the failed list
on that account. -/
theorem C3_amended (st : SimState) (t : Task) (rest : List Task)
    (hq : st.queue = t :: rest)
    (hc : classify (popScript st.scripts t.id).1 = AttemptRes.rateLimited) :
    step st = some (runAttempt t rest st) ∧
    (runAttempt t rest st).queue =
      rest ++ [{ id := t.id, opts := initOpts, wrapper := false }] ∧
    countRetrying (runAttempt t rest st).events = countRetrying st.events ∧
    (runAttempt t rest st).notDownloadedBeatMapSet = st.notDownloadedBeatMapSet ∧
    (runAttempt t rest st).attempts = st.attempts ++ [(t.id, t.opts)] := by
  refine ⟨by rw [step, hq], ?_, ?_, ?_, ?_⟩
  · rw [runAttempt]
    rw [hc]
    rw [finishTask_queue]
  · rw [runAttempt, hc, countRetrying, finishTask_countP _ _ _ (fun l => rfl)]
    simp [List.countP_append, List.countP_cons, countRetrying, isRetryingEv]
  · rw [runAttempt, hc, finishTask_notDownloaded]
  · rw [runAttempt, hc, finishTask_attempts]

/-- Witness for C3 amended: a rate-limited fourth attempt at the head of a
concrete queue. -/
theorem C3_amended_witness :
    step { queue := [{ id := 1, opts := { retries := 0, alt := true }, wrapper := true }],
           scripts := [(1, [{ status := 429, contentDisposition := none, bodyNull := false }])],
           events := [], downloadedBeatMapSetSize := 0, notDownloadedBeatMapSet := [],
           processedCount := 0, totalCount := 1, attempts := [] } =
      some (runAttempt { id := 1, opts := { retries := 0, alt := true }, wrapper := true } []
        { queue := [{ id := 1, opts := { retries := 0, alt := true }, wrapper := true }],
          scripts := [(1, [{ status := 429, contentDisposition := none, bodyNull := false }])],
          events := [], downloadedBeatMapSetSize := 0, notDownloadedBeatMapSet := [],
          processedCount := 0, totalCount := 1, attempts := [] }) ∧
    (runAttempt { id := 1, opts := { retries := 0, alt := true }, wrapper := true } []
        { queue := [{ id := 1, opts := { retries := 0, alt := true }, wrapper := true }],
          scripts := [(1, [{ status := 429, contentDisposition := none, bodyNull := false }])],
          events := [], downloadedBeatMapSetSize := 0, notDownloadedBeatMapSet := [],
          processedCount := 0, totalCount := 1, attempts := [] }).queue =
      [] ++ [{ id := 1, opts := initOpts, wrapper := false }] :=
  ⟨(C3_amended
      { queue := [{ id := 1, opts := { retries := 0, alt := true }, wrapper := true }],
        scripts := [(1, [{ status := 429, contentDisposition := none, bodyNull := false }])],
        events := [], downloadedBeatMapSetSize := 0, notDownloadedBeatMapSet := [],
        processedCount := 0, totalCount := 1, attempts := [] }
      { id := 1, opts := { retries := 0, alt := true }, wrapper := true } [] rfl rfl).1,
   (C3_amended
      { queue := [{ id := 1, opts := { retries := 0, alt := true }, wrapper := true }],
        scripts := [(1, [{ status := 429, contentDisposition := none, bodyNull := false }])],
        events := [], downloadedBeatMapSetSize := 0, notDownloadedBeatMapSet := [],
        processedCount := 0, totalCount := 1, attempts := [] }
      { id := 1, opts := { retries := 0, alt := true }, wrapper := true } [] rfl rfl).2.1⟩

/-- C4: a target all four of whose fetches fail (any non-429, non-200
classification) makes exactly 4 attempts whose `retries` decrease 3, 2, 1, 0,
with the alternate mirror used exactly on the 4th; exactly 3 `retrying`
signals and exactly 1 `error` signal are emitted and the target is recorded
in the failed list. -/
theorem C4_retry_chain (id : Nat) (o1 o2 o3 o4 : FetchOutcome)
    (h1 : classify o1 = AttemptRes.failure) (h2 : classify o2 = AttemptRes.failure)
    (h3 : classify o3 = AttemptRes.failure) (h4 : classify o4 = AttemptRes.failure) :
    (runBulk [id] [] [(id, [o1, o2, o3, o4])] 9).map
        (fun st => (st.attempts, countRetrying st.events, countError st.events,
                    st.notDownloadedBeatMapSet)) =
      some ([(id, { retries := 3, alt := false }), (id, { retries := 2, alt := false }),
             (id, { retries := 1, alt := false }), (id, { retries := 0, alt := true })],
            3, 1, [id]) := by
  simp [runBulk, addTargets, addOne, initialState, isBeatmapExisting, runQueue, step, runAttempt,
    popScript, finishTask, h1, h2, h3, h4, initOpts, countRetrying, countError,
    List.countP_append, List.countP_cons, isRetryingEv, isErrorEv]

/-- Witness for C4: target 7 with status 500 on every attempt. -/
theorem C4_retry_chain_witness :
    (runBulk [7] []
        [(7, [{ status := 500, contentDisposition := none, bodyNull := false },
              { status := 500, contentDisposition := none, bodyNull := false },
              { status := 500, contentDisposition := none, bodyNull := false },
              { status := 500, contentDisposition := none, bodyNull := false }])] 9).map
        (fun st => (st.attempts, countRetrying st.events, countError st.events,
                    st.notDownloadedBeatMapSet)) =
      some ([(7, { retries := 3, alt := false }), (7, { retries := 2, alt := false }),
             (7, { retries := 1, alt := false }), (7, { retries := 0, alt := true })],
            3, 1, [7]) :=
  C4_retry_chain 7 _ _ _ _ (by decide) (by decide) (by decide) (by decide)

/-- C8: a filename token that fails percent-decoding makes `_getFilename`
raise the distinct extraction error (not the default name); a 200 response
whose filename extraction errors classifies as an attempt failure; and an
attempt failure is absorbed at the attempt level — with retries left the
chain continues with one fewer retry (a `retrying` signal), with none left
the target goes to the failed list (an `error` signal) — in both cases the
scheduler step succeeds, so the run is never aborted. -/
theorem C8_decode_failure :
    (∀ (s : String) (tok : List Char), findFilenameToken s.data = some tok →
       decodeURIComponent (String.mk tok) = none →
       getFilename (some s) = Except.error OcdlErrorKind.fileNameExtractionFailed) ∧
    (∀ o : FetchOutcome, o.status = 200 →
       getFilename o.contentDisposition = Except.error OcdlErrorKind.fileNameExtractionFailed →
       classify o = AttemptRes.failure) ∧
    (∀ (st : SimState) (t : Task) (rest : List Task), st.queue = t :: rest →
       classify (popScript st.scripts t.id).1 = AttemptRes.failure →
       t.opts.retries ≠ 0 →
       step st = some (runAttempt t rest st) ∧
       (runAttempt t rest st).queue =
         { id := t.id, opts := { retries := t.opts.retries - 1, alt := t.opts.retries == 1 },
           wrapper := t.wrapper } :: rest ∧
       countRetrying (runAttempt t rest st).events = countRetrying st.events + 1) ∧
    (∀ (st : SimState) (t : Task) (rest : List Task), st.queue = t :: rest →
       classify (popScript st.scripts t.id).1 = AttemptRes.failure →
       t.opts.retries = 0 →
       step st = some (runAttempt t rest st) ∧
       (runAttempt t rest st).notDownloadedBeatMapSet =
         st.notDownloadedBeatMapSet ++ [t.id] ∧
       countError (runAttempt t rest st).events = countError st.events + 1) := by
  refine ⟨?_, ?_, ?_, ?_⟩
  · intro s tok hft hdec
    simp only [getFilename, hft, hdec]
  · intro o h200 herr
    rw [classify, h200]
    rw [herr]
    simp
  · intro st t rest hq hc hr
    refine ⟨by rw [step, hq], ?_, ?_⟩
    · rw [runAttempt, hc]
      simp [hr]
    · rw [runAttempt, hc]
      simp [hr, countRetrying, List.countP_append, List.countP_cons, isRetryingEv]
  · intro st t rest hq hc hr
    refine ⟨by rw [step, hq], ?_, ?_⟩
    · rw [runAttempt, hc]
      simp [hr, finishTask_notDownloaded]
    · rw [runAttempt, hc]
      simp only [hr, ne_eq, not_true_eq_false, if_false, ite_false]
      rw [countError, finishTask_countP _ _ _ (fun l => rfl)]
      simp [countError, List.countP_append, List.countP_cons, isErrorEv]

/-- Witness for C8: the header `attachment; filename=%E0` (a lone UTF-8 lead
byte) fails percent-decoding and yields the extraction error. -/
theorem C8_decode_failure_witness :
    getFilename (some "attachment; filename=%E0") =
      Except.error OcdlErrorKind.fileNameExtractionFailed :=
  C8_decode_failure.1 "attachment; filename=%E0" ['%', 'E', '0'] rfl rfl

/-! ## Completion accounting -/

/-- C2 is violated by the code: with one target whose fetches return 429 then
200, the first `end` is emitted while the target is still pending, with
0 downloaded, 0 skipped and an empty failed list against a total of 1 (the
429 branch re-queues the target, yet the wrapper continuation still counts it
as processed). -/
theorem C2_premature_end :
    (runBulk [1] []
        [(1, [{ status := 429, contentDisposition := none, bodyNull := false },
              { status := 200, contentDisposition := none, bodyNull := false }])] 10).bind
        (fun st => firstEndStats st.events 0 0) =
      some (0, 0, 0) ∧
    0 + 0 + 0 ≠ ([1] : List Nat).length := by
  constructor
  · rfl
  · decide

/-- C1 counterexample: one non-skipped target that downloads successfully
yields two `end` emissions — one from the completion counter and a second
from the unguarded `queue.on("idle")` listener. -/
theorem C1_counterexample :
    (runBulk [1] []
        [(1, [{ status := 200, contentDisposition := none, bodyNull := false }])] 5).map
        (fun st => countEnd st.events) =
      some 2 ∧
    (2 : Nat) ≠ 1 := by
  constructor
  · rfl
  · decide

/-! ## Run invariants: completion counting and the downloaded counter -/

theorem wrapCount_nil : wrapCount [] = 0 := rfl

theorem wrapCount_cons (t : Task) (q : List Task) :
    wrapCount (t :: q) = wrapCount q + (if t.wrapper then 1 else 0) := by
  simp [wrapCount, List.countP_cons]

theorem wrapCount_append (q1 q2 : List Task) :
    wrapCount (q1 ++ q2) = wrapCount q1 + wrapCount q2 := by
  simp [wrapCount, List.countP_append]

theorem countEnd_append_nonend (evs : List Ev) (e : Ev) (he : isEndEv e = false) :
    countEnd (evs ++ [e]) = countEnd evs := by
  simp [countEnd, List.countP_append, List.countP_cons, he]

theorem countEnd_append_downloading (evs : List Ev) (id : Nat) :
    countEnd (evs ++ [Ev.downloading id]) = countEnd evs :=
  countEnd_append_nonend evs (Ev.downloading id) rfl

theorem countEnd_append_downloaded (evs : List Ev) (id : Nat) :
    countEnd (evs ++ [Ev.downloaded id]) = countEnd evs :=
  countEnd_append_nonend evs (Ev.downloaded id) rfl

theorem countEnd_append_retrying (evs : List Ev) (id : Nat) :
    countEnd (evs ++ [Ev.retrying id]) = countEnd evs :=
  countEnd_append_nonend evs (Ev.retrying id) rfl

theorem countEnd_append_error (evs : List Ev) (id : Nat) :
    countEnd (evs ++ [Ev.errorEv id]) = countEnd evs :=
  countEnd_append_nonend evs (Ev.errorEv id) rfl

theorem countEnd_append_skipped (evs : List Ev) (id : Nat) :
    countEnd (evs ++ [Ev.skipped id]) = countEnd evs :=
  countEnd_append_nonend evs (Ev.skipped id) rfl

theorem countEnd_append_rateLimited (evs : List Ev) :
    countEnd (evs ++ [Ev.rateLimited]) = countEnd evs :=
  countEnd_append_nonend evs Ev.rateLimited rfl

theorem runAttempt_totalCount (t : Task) (rest : List Task) (st : SimState) :
    (runAttempt t rest st).totalCount = st.totalCount := by
  rw [runAttempt]
  cases classify (popScript st.scripts t.id).1 with
  | success => rw [finishTask_totalCount]
  | rateLimited => rw [finishTask_totalCount]
  | failure =>
    split_ifs
    · rfl
    · rw [finishTask_totalCount]

theorem runAttempt_endInv (t : Task) (rest : List Task) (st : SimState)
    (hq : st.queue = t :: rest)
    (hA : st.processedCount + wrapCount st.queue = st.totalCount)
    (hB : countEnd st.events =
      (if st.processedCount = st.totalCount ∧ 0 < st.totalCount then 1 else 0)) :
    (runAttempt t rest st).processedCount + wrapCount (runAttempt t rest st).queue =
        (runAttempt t rest st).totalCount ∧
    countEnd (runAttempt t rest st).events =
      (if (runAttempt t rest st).processedCount = (runAttempt t rest st).totalCount ∧
          0 < (runAttempt t rest st).totalCount then 1 else 0) := by
  rw [hq, wrapCount_cons] at hA
  rw [runAttempt]
  cases hc : classify (popScript st.scripts t.id).1 with
  | success =>
    refine ⟨?_, ?_⟩
    · rw [finishTask_processed, finishTask_queue, finishTask_totalCount]
      cases hw : t.wrapper <;> simp [hw] at hA ⊢ <;> omega
    · rw [finishTask_countEnd, finishTask_processed, finishTask_totalCount]
      simp only [countEnd_append_downloaded, countEnd_append_downloading]
      rw [hB]
      cases hw : t.wrapper <;> simp [hw] at hA ⊢ <;> split_ifs <;> omega
  | rateLimited =>
    refine ⟨?_, ?_⟩
    · rw [finishTask_processed, finishTask_queue, finishTask_totalCount]
      simp only [wrapCount_append, wrapCount_cons, wrapCount_nil]
      cases hw : t.wrapper <;> simp [hw] at hA ⊢ <;> omega
    · rw [finishTask_countEnd, finishTask_processed, finishTask_totalCount]
      simp only [countEnd_append_rateLimited, countEnd_append_downloading]
      rw [hB]
      cases hw : t.wrapper <;> simp [hw] at hA ⊢ <;> split_ifs <;> omega
  | failure =>
    dsimp only
    by_cases hr : t.opts.retries ≠ 0
    · rw [if_pos hr]
      refine ⟨?_, ?_⟩
      · simp only [wrapCount_cons]
        cases hw : t.wrapper <;> simp [hw] at hA ⊢ <;> omega
      · simp only [countEnd_append_retrying, countEnd_append_downloading]
        exact hB
    · rw [if_neg hr]
      refine ⟨?_, ?_⟩
      · rw [finishTask_processed, finishTask_queue, finishTask_totalCount]
        cases hw : t.wrapper <;> simp [hw] at hA ⊢ <;> omega
      · rw [finishTask_countEnd, finishTask_processed, finishTask_totalCount]
        simp only [countEnd_append_error, countEnd_append_downloading]
        rw [hB]
        cases hw : t.wrapper <;> simp [hw] at hA ⊢ <;> split_ifs <;> omega

theorem runQueue_endInv : ∀ (fuel : Nat) (st st2 : SimState),
    runQueue fuel st = some st2 →
    st.processedCount + wrapCount st.queue = st.totalCount →
    countEnd st.events =
      (if st.processedCount = st.totalCount ∧ 0 < st.totalCount then 1 else 0) →
    st2.queue = [] ∧ st2.totalCount = st.totalCount ∧
    countEnd st2.events = (if 0 < st.totalCount then 1 else 0) := by
  intro fuel
  induction fuel with
  | zero =>
    intro st st2 h hA hB
    rw [runQueue] at h
    split_ifs at h with hq
    cases h
    refine ⟨hq, rfl, ?_⟩
    rw [hq, wrapCount_nil] at hA
    rw [hB]
    split_ifs <;> omega
  | succ fuel ih =>
    intro st st2 h hA hB
    rw [runQueue] at h
    cases hq : st.queue with
    | nil =>
      rw [step, hq] at h
      simp at h
      cases h
      refine ⟨hq, rfl, ?_⟩
      rw [hq, wrapCount_nil] at hA
      rw [hB]
      split_ifs <;> omega
    | cons t rest =>
      rw [step, hq] at h
      simp only at h
      obtain ⟨hA2, hB2⟩ := runAttempt_endInv t rest st hq hA hB
      have htc := runAttempt_totalCount t rest st
      obtain ⟨h1, h2, h3⟩ := ih (runAttempt t rest st) st2 h hA2 hB2
      exact ⟨h1, by rw [h2, htc], by rw [h3, htc]⟩

theorem addOne_totalCount (index : List String) (st : SimState) (id : Nat) :
    (addOne index st id).totalCount = st.totalCount := by
  rw [addOne]
  split_ifs <;> simp [finishTask_totalCount]

theorem addOne_endInv (index : List String) (st : SimState) (id : Nat)
    (hlt : st.processedCount + wrapCount st.queue < st.totalCount)
    (hB : countEnd st.events =
      (if st.processedCount = st.totalCount ∧ 0 < st.totalCount then 1 else 0)) :
    (addOne index st id).processedCount + wrapCount (addOne index st id).queue =
        st.processedCount + wrapCount st.queue + 1 ∧
    countEnd (addOne index st id).events =
      (if (addOne index st id).processedCount = st.totalCount ∧ 0 < st.totalCount
       then 1 else 0) := by
  rw [addOne]
  by_cases hex : isBeatmapExisting id index = true
  · rw [if_pos hex]
    refine ⟨?_, ?_⟩
    · rw [finishTask_processed, finishTask_queue]
      simp
      omega
    · rw [finishTask_countEnd, finishTask_processed]
      dsimp only
      rw [countEnd_append_skipped, hB]
      have hne : ¬(st.processedCount = st.totalCount ∧ 0 < st.totalCount) := by omega
      rw [if_neg hne]
      simp only [true_and, Nat.zero_add]
      split_ifs <;> simp_all <;> omega
  · rw [if_neg hex]
    refine ⟨?_, ?_⟩
    · dsimp only
      rw [wrapCount_append]
      simp [wrapCount_cons, wrapCount_nil]
      omega
    · dsimp only
      rw [hB]

theorem addTargets_totalCount (index : List String) :
    ∀ (ts : List Nat) (st : SimState), (addTargets index ts st).totalCount = st.totalCount := by
  intro ts
  induction ts with
  | nil => intro st; rfl
  | cons id ts ih =>
    intro st
    rw [addTargets, ih, addOne_totalCount]

theorem addTargets_queue (index : List String) :
    ∀ (ts : List Nat) (st : SimState),
      (addTargets index ts st).queue =
        st.queue ++ (queuedTargets ts index).map
          (fun id => ({ id := id, opts := initOpts, wrapper := true } : Task)) := by
  intro ts
  induction ts with
  | nil => intro st; simp [addTargets, queuedTargets]
  | cons id ts ih =>
    intro st
    rw [addTargets, ih]
    rw [addOne]
    split_ifs with hex
    · rw [finishTask_queue]
      simp only [queuedTargets, List.filter_cons, hex]
      simp
    · simp only [queuedTargets, List.filter_cons, hex]
      simp [List.append_assoc]

theorem addTargets_endInv (index : List String) :
    ∀ (ts : List Nat) (st : SimState),
      st.processedCount + wrapCount st.queue + ts.length = st.totalCount →
      countEnd st.events =
        (if st.processedCount = st.totalCount ∧ 0 < st.totalCount then 1 else 0) →
      (addTargets index ts st).processedCount + wrapCount (addTargets index ts st).queue =
          st.totalCount ∧
      countEnd (addTargets index ts st).events =
        (if (addTargets index ts st).processedCount = st.totalCount ∧ 0 < st.totalCount
         then 1 else 0) := by
  intro ts
  induction ts with
  | nil =>
    intro st hA hB
    simp at hA
    exact ⟨by rw [addTargets]; omega, by rw [addTargets, hB]⟩
  | cons id ts ih =>
    intro st hA hB
    rw [addTargets]
    have hlt : st.processedCount + wrapCount st.queue < st.totalCount := by
      simp [List.length_cons] at hA
      omega
    obtain ⟨h1, h2⟩ := addOne_endInv index st id hlt hB
    have htc := addOne_totalCount index st id
    have hA2 : (addOne index st id).processedCount + wrapCount (addOne index st id).queue +
        ts.length = (addOne index st id).totalCount := by
      rw [htc]
      simp [List.length_cons] at hA
      omega
    have hB2 : countEnd (addOne index st id).events =
        (if (addOne index st id).processedCount = (addOne index st id).totalCount ∧
            0 < (addOne index st id).totalCount then 1 else 0) := by
      rw [htc, h2]
    obtain ⟨g1, g2⟩ := ih (addOne index st id) hA2 hB2
    rw [htc] at g1 g2
    exact ⟨g1, g2⟩

theorem countEnd_append_end (evs : List Ev) (l : List Nat) :
    countEnd (evs ++ [Ev.endEv l]) = countEnd evs + 1 := by
  simp [countEnd, List.countP_append, List.countP_cons, isEndEv]

/-- C1 amended: the completion counter emits `end` exactly once, when it
reaches the total target count; in addition the unguarded `queue.on("idle")`
listener emits `end` once more whenever at least one target was submitted to
the queue.  Hence a completed run emits `end` exactly
`(total > 0) + (queued > 0)` times: twice when any target is downloaded,
once when all targets are skipped, and never for an empty target set. -/
theorem C1_end_emissions (targets : List Nat) (index : List String)
    (scripts : List (Nat × List FetchOutcome)) (fuel : Nat) (st : SimState)
    (h : runBulk targets index scripts fuel = some st) :
    countEnd st.events =
      (if targets.length = 0 then 0 else 1) +
      (if (queuedTargets targets index).length = 0 then 0 else 1) := by
  have hA0 : (initialState targets scripts).processedCount +
      wrapCount (initialState targets scripts).queue + targets.length =
      (initialState targets scripts).totalCount := by
    simp [initialState, wrapCount_nil]
  have hB0 : countEnd (initialState targets scripts).events =
      (if (initialState targets scripts).processedCount =
          (initialState targets scripts).totalCount ∧
          0 < (initialState targets scripts).totalCount then 1 else 0) := by
    simp only [initialState, countEnd, List.countP_nil]
    split_ifs with hcon
    · omega
    · rfl
  obtain ⟨g1, g2⟩ := addTargets_endInv index targets (initialState targets scripts) hA0 hB0
  have gtc := addTargets_totalCount index targets (initialState targets scripts)
  have hA1 : (addTargets index targets (initialState targets scripts)).processedCount +
      wrapCount (addTargets index targets (initialState targets scripts)).queue =
      (addTargets index targets (initialState targets scripts)).totalCount := by
    rw [gtc]; exact g1
  have hB1 : countEnd (addTargets index targets (initialState targets scripts)).events =
      (if (addTargets index targets (initialState targets scripts)).processedCount =
          (addTargets index targets (initialState targets scripts)).totalCount ∧
          0 < (addTargets index targets (initialState targets scripts)).totalCount
       then 1 else 0) := by
    rw [gtc]; exact g2
  rw [runBulk] at h
  cases hrq : runQueue fuel (addTargets index targets (initialState targets scripts)) with
  | none =>
    simp only [hrq] at h
    exact Option.noConfusion h
  | some st2 =>
    simp only [hrq] at h
    obtain ⟨hq2, htc2, hcE⟩ := runQueue_endInv fuel _ st2 hrq hA1 hB1
    rw [gtc] at hcE
    rw [show (initialState targets scripts).totalCount = targets.length from rfl] at hcE
    have hqf := addTargets_queue index targets (initialState targets scripts)
    rw [show (initialState targets scripts).queue = [] from rfl, List.nil_append] at hqf
    by_cases hempty : (queuedTargets targets index).length = 0
    · have hqnil : queuedTargets targets index = [] := List.length_eq_zero.mp hempty
      rw [hqnil, List.map_nil] at hqf
      rw [hqf] at h
      simp only [List.isEmpty_nil, if_true] at h
      cases h
      rw [hcE, if_pos hempty]
      split_ifs <;> omega
    · have hne : queuedTargets targets index ≠ [] := by
        intro hcon
        rw [hcon] at hempty
        exact hempty rfl
      have hie : ((queuedTargets targets index).map
          (fun id => ({ id := id, opts := initOpts, wrapper := true } : Task))).isEmpty =
            false := by
        cases hq : queuedTargets targets index with
        | nil => exact absurd hq hne
        | cons a l => rfl
      rw [hqf, hie] at h
      simp only [Bool.false_eq_true, if_false] at h
      cases h
      rw [countEnd_append_end, hcE, if_neg hempty]
      split_ifs <;> omega

/-- Witness for C1 amended: one non-skipped target that downloads
successfully gives two `end` emissions. -/
theorem C1_end_emissions_witness :
    (runBulk [2] [] [] 3).map (fun s => countEnd s.events) = some 2 := by
  cases hrb : runBulk [2] [] [] 3 with
  | none => exact absurd hrb (by decide)
  | some s =>
    have hval := C1_end_emissions [2] [] [] 3 s hrb
    show some (countEnd s.events) = some 2
    rw [hval]
    decide


theorem finishTask_countDownloaded (w : Bool) (st : SimState) :
    countDownloaded (finishTask w st).events = countDownloaded st.events :=
  finishTask_countP w st isDownloadedEv (fun _ => rfl)

theorem finishTask_countSkipped (w : Bool) (st : SimState) :
    countSkipped (finishTask w st).events = countSkipped st.events :=
  finishTask_countP w st isSkippedEv (fun _ => rfl)

theorem countDownloaded_append (evs : List Ev) (e : Ev) :
    countDownloaded (evs ++ [e]) = countDownloaded evs + (if isDownloadedEv e then 1 else 0) := by
  simp [countDownloaded, List.countP_append, List.countP_cons]

theorem countSkipped_append (evs : List Ev) (e : Ev) :
    countSkipped (evs ++ [e]) = countSkipped evs + (if isSkippedEv e then 1 else 0) := by
  simp [countSkipped, List.countP_append, List.countP_cons]

theorem runAttempt_sizeInv (t : Task) (rest : List Task) (st : SimState)
    (h : st.downloadedBeatMapSetSize = countDownloaded st.events + countSkipped st.events) :
    (runAttempt t rest st).downloadedBeatMapSetSize =
      countDownloaded (runAttempt t rest st).events +
        countSkipped (runAttempt t rest st).events := by
  rw [runAttempt]
  cases hc : classify (popScript st.scripts t.id).1 with
  | success =>
    rw [finishTask_size, finishTask_countDownloaded, finishTask_countSkipped]
    dsimp only
    rw [countDownloaded_append, countDownloaded_append, countSkipped_append, countSkipped_append]
    simp [isDownloadedEv, isSkippedEv]
    omega
  | rateLimited =>
    rw [finishTask_size, finishTask_countDownloaded, finishTask_countSkipped]
    dsimp only
    rw [countDownloaded_append, countDownloaded_append, countSkipped_append, countSkipped_append]
    simp [isDownloadedEv, isSkippedEv]
    omega
  | failure =>
    dsimp only
    by_cases hr : t.opts.retries ≠ 0
    · rw [if_pos hr]
      dsimp only
      rw [countDownloaded_append, countDownloaded_append, countSkipped_append, countSkipped_append]
      simp [isDownloadedEv, isSkippedEv]
      omega
    · rw [if_neg hr]
      rw [finishTask_size, finishTask_countDownloaded, finishTask_countSkipped]
      dsimp only
      rw [countDownloaded_append, countDownloaded_append, countSkipped_append, countSkipped_append]
      simp [isDownloadedEv, isSkippedEv]
      omega

theorem runQueue_sizeInv : ∀ (fuel : Nat) (st st2 : SimState),
    runQueue fuel st = some st2 →
    st.downloadedBeatMapSetSize = countDownloaded st.events + countSkipped st.events →
    st2.downloadedBeatMapSetSize = countDownloaded st2.events + countSkipped st2.events := by
  intro fuel
  induction fuel with
  | zero =>
    intro st st2 h hI
    rw [runQueue] at h
    split_ifs at h
    cases h
    exact hI
  | succ fuel ih =>
    intro st st2 h hI
    rw [runQueue] at h
    cases hq : st.queue with
    | nil =>
      rw [step, hq] at h
      simp at h
      cases h
      exact hI
    | cons t rest =>
      rw [step, hq] at h
      simp only at h
      exact ih (runAttempt t rest st) st2 h (runAttempt_sizeInv t rest st hI)

theorem addOne_sizeInv (index : List String) (st : SimState) (id : Nat)
    (h : st.downloadedBeatMapSetSize = countDownloaded st.events + countSkipped st.events) :
    (addOne index st id).downloadedBeatMapSetSize =
      countDownloaded (addOne index st id).events + countSkipped (addOne index st id).events := by
  rw [addOne]
  by_cases hex : isBeatmapExisting id index = true
  · rw [if_pos hex]
    rw [finishTask_size, finishTask_countDownloaded, finishTask_countSkipped]
    dsimp only
    rw [countDownloaded_append, countSkipped_append]
    simp [isDownloadedEv, isSkippedEv]
    omega
  · rw [if_neg hex]
    exact h

theorem addTargets_sizeInv (index : List String) :
    ∀ (ts : List Nat) (st : SimState),
      st.downloadedBeatMapSetSize = countDownloaded st.events + countSkipped st.events →
      (addTargets index ts st).downloadedBeatMapSetSize =
        countDownloaded (addTargets index ts st).events +
          countSkipped (addTargets index ts st).events := by
  intro ts
  induction ts with
  | nil => intro st h; exact h
  | cons id ts ih =>
    intro st h
    rw [addTargets]
    exact ih (addOne index st id) (addOne_sizeInv index st id h)

/-- C9: `downloadedBeatMapSetSize`, as returned by
`getDownloadedBeatMapSetSize`, is a single counter incremented both on a skip
and on a successful download, so after any completed run its value equals the
number of `downloaded` emissions plus the number of `skipped` emissions, not
the number of downloads alone. -/
theorem C9_downloaded_counter (targets : List Nat) (index : List String)
    (scripts : List (Nat × List FetchOutcome)) (fuel : Nat) (st : SimState)
    (h : runBulk targets index scripts fuel = some st) :
    getDownloadedBeatMapSetSize st = countDownloaded st.events + countSkipped st.events := by
  rw [runBulk] at h
  cases hrq : runQueue fuel (addTargets index targets (initialState targets scripts)) with
  | none =>
    simp only [hrq] at h
    exact Option.noConfusion h
  | some st2 =>
    simp only [hrq] at h
    have h0 : (initialState targets scripts).downloadedBeatMapSetSize =
        countDownloaded (initialState targets scripts).events +
          countSkipped (initialState targets scripts).events := rfl
    have h1 := addTargets_sizeInv index targets (initialState targets scripts) h0
    have h2 := runQueue_sizeInv fuel _ st2 hrq h1
    split_ifs at h
    · cases h
      exact h2
    · cases h
      rw [getDownloadedBeatMapSetSize]
      dsimp only
      rw [countDownloaded_append, countSkipped_append]
      simp [isDownloadedEv, isSkippedEv]
      exact h2

/-- Witness for C9: one skipped and one downloaded target; the counter equals
`downloaded + skipped` at the end of the run. -/
theorem C9_downloaded_counter_witness :
    (runBulk [5, 6] ["5"]
        [(6, [{ status := 200, contentDisposition := none, bodyNull := false }])] 9).map
        getDownloadedBeatMapSetSize =
      (runBulk [5, 6] ["5"]
        [(6, [{ status := 200, contentDisposition := none, bodyNull := false }])] 9).map
        (fun s => countDownloaded s.events + countSkipped s.events) := by
  cases hrb : runBulk [5, 6] ["5"]
      [(6, [{ status := 200, contentDisposition := none, bodyNull := false }])] 9 with
  | none => rfl
  | some s =>
    have hval := C9_downloaded_counter [5, 6] ["5"]
      [(6, [{ status := 200, contentDisposition := none, bodyNull := false }])] 9 s hrb
    show some (getDownloadedBeatMapSetSize s) = some (countDownloaded s.events + countSkipped s.events)
    rw [hval]


end Ocdl




